import Mathlib

/-!
# Verification of the robot_controllers controller manager

A shallow embedding of the controller lifecycle and resource-arbitration
engine declared in
`robot_controllers_interface/include/robot_controllers_interface/controller_manager.h`.
The repository ships only the interface declaration; every behavioral
definition below is therefore modelled from the specification's contract
for the corresponding member function.
-/

namespace RobotControllers


/-- Modelled from the spec: a joint handle is a named reference to a single
controllable quantity; the access capability itself is opaque (represented
here by an abstract payload).  The `.cpp` defining `JointHandle` is not in
the repository. -/
structure JointHandle where
  name : String
  payload : Nat
deriving DecidableEq, Repr

/-- Modelled from the spec: a gyro handle is a named reference to a single
readable quantity; the access capability is opaque.  The `.cpp` defining
`GyroHandle` is not in the repository. -/
structure GyroHandle where
  name : String
  payload : Nat
deriving DecidableEq, Repr

/-- Modelled from the spec: the category-agnostic handle returned by
`ControllerManager::getHandle`. -/
inductive Handle where
  | joint : JointHandle → Handle
  | gyro : GyroHandle → Handle
deriving DecidableEq, Repr

/-- Modelled from the spec: one Controller Record — loaded name, the set of
resource names the controller claims (computed once at load time and stable
thereafter), the current run state (RUNNING = `true`, STOPPED = `false`),
and the abstracted behavior of the wrapped controller: whether its start
step succeeds and whether its update step faults.  The `Controller`
implementation class is not in the repository. -/
structure ControllerRecord where
  name : String
  claimed : List String
  startOk : Bool
  updateFaults : Bool
  running : Bool
deriving DecidableEq, Repr

/-- Modelled from the spec: the manager state — the ordered collection of
Controller Records plus the handle registry (`controllers_`, `joints_`,
`gyros_` in the header). -/
structure Manager where
  controllers : List ControllerRecord
  joints : List JointHandle
  gyros : List GyroHandle
deriving DecidableEq, Repr

/-- Two claimed-resource sets intersect (the conflict rule of the spec):
some resource name occurs in both lists. -/
def resConflict (a b : List String) : Bool :=
  a.any (fun r => b.contains r)

/-- Modelled from the spec: the single per-record transformation performed by
`ControllerManager::requestStart` once the target record `target` has been
found STOPPED: every *other* RUNNING record whose claimed-resource set
intersects the target's is transitioned to STOPPED (conflict eviction), and
the target itself is marked RUNNING exactly when its own start step
succeeds (`ok = true`). -/
def startTransform (target : ControllerRecord) (ok : Bool) (r : ControllerRecord) :
    ControllerRecord :=
  if r.name = target.name then
    (if ok then { r with running := true } else r)
  else if r.running && resConflict r.claimed target.claimed then
    { r with running := false }
  else
    r

/-- Modelled from the spec: `ControllerManager::requestStart` (declared at
controller_manager.h:77, implementation not in the repository).  Look up the
record by name; if absent fail with a negative "not found" code; if already
RUNNING succeed as a no-op; otherwise evict every conflicting RUNNING record
and invoke the target's start step, marking it RUNNING on success (code 0)
and leaving it STOPPED on failure (negative "start failure" code, evictions
committed). -/
def Manager.requestStart (m : Manager) (name : String) : Manager × Int :=
  match m.controllers.find? (fun r => r.name = name) with
  | none => (m, -1)
  | some c =>
    if c.running then (m, 0)
    else
      let ctrls := m.controllers.map (startTransform c c.startOk)
      if c.startOk then ({ m with controllers := ctrls }, 0)
      else ({ m with controllers := ctrls }, -2)

/-- Modelled from the spec: the per-record transformation performed by
`ControllerManager::requestStop` once the target record has been found
RUNNING: the record named `name` is transitioned to STOPPED (its stop step
is invoked); every other record is untouched. -/
def stopTransform (name : String) (r : ControllerRecord) : ControllerRecord :=
  if r.name = name then { r with running := false } else r

/-- Modelled from the spec: `ControllerManager::requestStop` (declared at
controller_manager.h:80).  Look up by name; if absent fail; if STOPPED
succeed as a no-op; otherwise invoke the stop step and mark the record
STOPPED. -/
def Manager.requestStop (m : Manager) (name : String) : Manager × Int :=
  match m.controllers.find? (fun r => r.name = name) with
  | none => (m, -1)
  | some c =>
    if c.running then
      ({ m with controllers := m.controllers.map (stopTransform name) }, 0)
    else (m, 0)

/-- One observable invocation of a controller's update step: which record was
invoked, the time and elapsed interval passed to it, and whether that
controller's update step faulted. -/
structure UpdateCall where
  name : String
  time : Int
  dt : Int
  faulted : Bool
deriving DecidableEq, Repr

/-- Modelled from the spec: the dispatch loop body of
`ControllerManager::update` — walk the record list in insertion order and
invoke the update step of every RUNNING record, passing `time` and `dt`
unchanged; a fault in one controller's update step is isolated and the walk
continues with the next record. -/
def updateLoop (time dt : Int) : List ControllerRecord → List UpdateCall
  | [] => []
  | c :: rest =>
    if c.running then
      { name := c.name, time := time, dt := dt, faulted := c.updateFaults }
        :: updateLoop time dt rest
    else
      updateLoop time dt rest

/-- Modelled from the spec: `ControllerManager::update` (declared at
controller_manager.h:83).  Invokes the update step of every RUNNING record in
record-insertion order; the dispatcher mutates no run state, so the manager
is returned unchanged together with the trace of update-step invocations. -/
def Manager.update (m : Manager) (time dt : Int) : Manager × List UpdateCall :=
  (m, updateLoop time dt m.controllers)

/-- Modelled from the spec: the loop body of `ControllerManager::reset` —
invoke the reset step on every record regardless of run state, changing no
run state; the trace records which controllers were reset, in order. -/
def resetLoop : List ControllerRecord → List String
  | [] => []
  | c :: rest => c.name :: resetLoop rest

/-- Modelled from the spec: `ControllerManager::reset` (declared at
controller_manager.h:86).  Invokes reset on every Controller Record
regardless of run state and does not change run states. -/
def Manager.reset (m : Manager) : Manager × List String :=
  (m, resetLoop m.controllers)

/-- Modelled from the spec: `ControllerManager::addJointHandle` (declared at
controller_manager.h:89): register the handle under its declared name,
failing (returning `false`, manager unchanged) if a joint handle of that
name already exists. -/
def Manager.addJointHandle (m : Manager) (h : JointHandle) : Manager × Bool :=
  if m.joints.any (fun j => j.name = h.name) then (m, false)
  else ({ m with joints := m.joints ++ [h] }, true)

/-- Modelled from the spec: `ControllerManager::addGyroHandle` (declared at
controller_manager.h:92): register the handle under its declared name,
failing (returning `false`, manager unchanged) if a gyro handle of that name
already exists. -/
def Manager.addGyroHandle (m : Manager) (h : GyroHandle) : Manager × Bool :=
  if m.gyros.any (fun g => g.name = h.name) then (m, false)
  else ({ m with gyros := m.gyros ++ [h] }, true)

/-- Modelled from the spec: `ControllerManager::getJointHandle` (declared at
controller_manager.h:106): return the joint handle registered under `name`,
or an empty result if absent; lookup never throws. -/
def Manager.getJointHandle (m : Manager) (name : String) : Option JointHandle :=
  m.joints.find? (fun j => j.name = name)

/-- Modelled from the spec: `ControllerManager::getGyroHandle` (declared at
controller_manager.h:114): return the gyro handle registered under `name`,
or an empty result if absent; lookup never throws. -/
def Manager.getGyroHandle (m : Manager) (name : String) : Option GyroHandle :=
  m.gyros.find? (fun g => g.name = name)

/-- Modelled from the spec: `ControllerManager::getHandle` (declared at
controller_manager.h:98): category-agnostic lookup returning the matching
handle from either registry, or a null result if absent; never throws. -/
def Manager.getHandle (m : Manager) (name : String) : Option Handle :=
  match m.getJointHandle name with
  | some j => some (Handle.joint j)
  | none =>
    match m.getGyroHandle name with
    | some g => some (Handle.gyro g)
    | none => none

/-- Modelled from the spec: `ControllerManager::getState` (declared at
controller_manager.h:130): fill the result with every loaded controller's
name and current run state, in load order, without mutating state. -/
def Manager.getState (m : Manager) : List (String × Bool) :=
  m.controllers.map (fun c => (c.name, c.running))

/-- Modelled from the spec: the start phase of the gateway's execute
operation — apply `requestStart` to each requested name in the order listed;
a failure of one named operation (a nonzero result code) does not abort
processing of the remaining names. -/
def Manager.startAll (m : Manager) : List String → Manager
  | [] => m
  | n :: rest => ((m.requestStart n).1).startAll rest

/-- Modelled from the spec: the stop phase of the gateway's execute
operation — apply `requestStop` to each requested name in the order listed,
continuing past individual failures. -/
def Manager.stopAll (m : Manager) : List String → Manager
  | [] => m
  | n :: rest => ((m.requestStop n).1).stopAll rest

/-- Modelled from the spec: `ControllerManager::execute` (declared at
controller_manager.h:127), the action gateway callback.  Applies the
requested start operations then the requested stop operations sequentially
in the order listed, each outcome independent of the others, then produces
the result snapshot enumerating every loaded controller's name with its
final run state. -/
def Manager.execute (m : Manager) (starts stops : List String) :
    Manager × List (String × Bool) :=
  let m1 := m.startAll starts
  let m2 := m1.stopAll stops
  (m2, m2.getState)

/-- An external arbitration request: one `requestStart` or `requestStop`
call. -/
inductive Op where
  | start (name : String)
  | stop (name : String)
deriving DecidableEq, Repr

/-- Apply a finite sequence of `requestStart` / `requestStop` calls. -/
def Manager.applyOps (m : Manager) : List Op → Manager
  | [] => m
  | Op.start n :: rest => ((m.requestStart n).1).applyOps rest
  | Op.stop n :: rest => ((m.requestStop n).1).applyOps rest

/-- No two loaded Controller Records share a name (guaranteed after `init`,
since `load` fails when a record with the same name already exists). -/
def NamesDistinct (m : Manager) : Prop :=
  (m.controllers.map (fun c => c.name)).Nodup

/-- The pairwise mutual-exclusion relation between Controller Records:
distinct names, and if both are RUNNING their claimed-resource sets do not
intersect. -/
def MutexRel (a b : ControllerRecord) : Prop :=
  a.name ≠ b.name ∧
    (a.running = true → b.running = true → resConflict a.claimed b.claimed = false)

/-- The manager invariant: the record list is pairwise mutually exclusive. -/
def Inv (m : Manager) : Prop :=
  m.controllers.Pairwise MutexRel

/-- Everything in a Controller Record except its run state: loaded name,
claimed resources, and the wrapped controller's behavior.  Arbitration calls
may flip run states but never touch this identity. -/
def recordId (c : ControllerRecord) : String × List String × Bool × Bool :=
  (c.name, c.claimed, c.startOk, c.updateFaults)

/-- Concrete joint handle for the spec's sample scenario. -/
def shoulderJoint : JointHandle :=
  { name := "shoulder_pan", payload := 0 }

/-- Sample record (spec scenario): trajectory follower claiming
"shoulder_pan", currently STOPPED. -/
def ftRec : ControllerRecord :=
  { name := "follow_trajectory", claimed := ["shoulder_pan"], startOk := true,
    updateFaults := false, running := false }

/-- Sample record (spec scenario): teleop controller claiming
"shoulder_pan", currently STOPPED. -/
def tpRec : ControllerRecord :=
  { name := "teleop", claimed := ["shoulder_pan"], startOk := true,
    updateFaults := false, running := false }

/-- The trajectory follower, RUNNING. -/
def ftRunning : ControllerRecord :=
  { ftRec with running := true }

/-- The teleop controller, RUNNING. -/
def tpRunning : ControllerRecord :=
  { tpRec with running := true }

/-- Sample record whose start step fails, claiming "shoulder_pan". -/
def badRec : ControllerRecord :=
  { name := "bad_start", claimed := ["shoulder_pan"], startOk := false,
    updateFaults := false, running := false }

/-- Sample post-init manager: both scenario controllers loaded, STOPPED. -/
def sampleStopped : Manager :=
  { controllers := [ftRec, tpRec], joints := [shoulderJoint], gyros := [] }

/-- Sample manager with the trajectory follower RUNNING. -/
def sampleFtRunning : Manager :=
  { controllers := [ftRunning, tpRec], joints := [shoulderJoint], gyros := [] }

/-- Sample manager with the trajectory follower RUNNING and a conflicting
controller whose start step fails. -/
def sampleBad : Manager :=
  { controllers := [ftRunning, badRec], joints := [shoulderJoint], gyros := [] }

/-- Sample record whose update step faults, RUNNING, claiming "arm". -/
def faultyRec : ControllerRecord :=
  { name := "faulty", claimed := ["arm"], startOk := true,
    updateFaults := true, running := true }

/-- Sample record with a healthy update step, RUNNING, claiming "base". -/
def healthyRec : ControllerRecord :=
  { name := "healthy", claimed := ["base"], startOk := true,
    updateFaults := false, running := true }

/-- Sample manager with a faulting and a healthy RUNNING controller. -/
def sampleFaulty : Manager :=
  { controllers := [faultyRec, healthyRec], joints := [], gyros := [] }

theorem resConflict_iff (a b : List String) :
    resConflict a b = true ↔ ∃ r, r ∈ a ∧ r ∈ b := by
  simp [resConflict, List.any_eq_true, List.contains_iff_exists_mem_beq]

theorem resConflict_comm (a b : List String) :
    resConflict a b = resConflict b a := by
  by_cases h : resConflict a b = true
  · rcases (resConflict_iff a b).mp h with ⟨r, hra, hrb⟩
    rw [h, Eq.comm, (resConflict_iff b a)]
    exact ⟨r, hrb, hra⟩
  · rw [Bool.not_eq_true] at h
    rw [h, Eq.comm]
    rw [Bool.eq_false_iff]
    intro hba
    rcases (resConflict_iff b a).mp hba with ⟨r, hrb, hra⟩
    have : resConflict a b = true := (resConflict_iff a b).mpr ⟨r, hra, hrb⟩
    simp [this] at h

theorem NamesDistinct.inj {m : Manager} (h : NamesDistinct m) :
    ∀ a ∈ m.controllers, ∀ b ∈ m.controllers, a.name = b.name → a = b := by
  intro a ha b hb hab
  exact List.inj_on_of_nodup_map h ha hb hab

theorem Inv.namesDistinct {m : Manager} (h : Inv m) : NamesDistinct m := by
  unfold NamesDistinct
  rw [List.Nodup, List.pairwise_map]
  exact h.imp (fun hab => hab.1)

theorem inv_of_all_stopped {m : Manager} (hnodup : NamesDistinct m)
    (hstop : ∀ c ∈ m.controllers, c.running = false) : Inv m := by
  unfold NamesDistinct at hnodup
  rw [List.Nodup, List.pairwise_map] at hnodup
  refine List.Pairwise.imp_of_mem ?_ hnodup
  intro a b ha _ hab
  refine ⟨hab, fun har _ => absurd (hstop a ha) ?_⟩
  simp [har]

theorem find?_name_eq_some_self {m : Manager} (hnd : NamesDistinct m)
    {x : ControllerRecord} (hx : x ∈ m.controllers) :
    m.controllers.find? (fun r => r.name = x.name) = some x := by
  cases hfind : m.controllers.find? (fun r => r.name = x.name) with
  | none =>
    rw [List.find?_eq_none] at hfind
    exact absurd (by simp) (hfind x hx)
  | some c =>
    have hc_mem : c ∈ m.controllers := List.mem_of_find?_eq_some hfind
    have hc_name : c.name = x.name := by simpa using List.find?_some hfind
    rw [hnd.inj c hc_mem x hx hc_name]

theorem requestStart_not_found {m : Manager} {n : String}
    (h : m.controllers.find? (fun r => r.name = n) = none) :
    m.requestStart n = (m, -1) := by
  simp [Manager.requestStart, h]

theorem requestStart_already_running {m : Manager} {n : String} {c : ControllerRecord}
    (h : m.controllers.find? (fun r => r.name = n) = some c) (hr : c.running = true) :
    m.requestStart n = (m, 0) := by
  simp [Manager.requestStart, h, hr]

theorem requestStart_fst_of_stopped {m : Manager} {n : String} {c : ControllerRecord}
    (h : m.controllers.find? (fun r => r.name = n) = some c) (hr : c.running = false) :
    (m.requestStart n).1 =
      { m with controllers := m.controllers.map (startTransform c c.startOk) } := by
  cases hok : c.startOk <;> simp [Manager.requestStart, h, hr, hok]

theorem requestStart_snd_of_failed {m : Manager} {n : String} {c : ControllerRecord}
    (h : m.controllers.find? (fun r => r.name = n) = some c) (hr : c.running = false)
    (hok : c.startOk = false) :
    (m.requestStart n).2 = -2 := by
  simp [Manager.requestStart, h, hr, hok]

theorem requestStop_not_found {m : Manager} {n : String}
    (h : m.controllers.find? (fun r => r.name = n) = none) :
    m.requestStop n = (m, -1) := by
  simp [Manager.requestStop, h]

theorem requestStop_stopped {m : Manager} {n : String} {c : ControllerRecord}
    (h : m.controllers.find? (fun r => r.name = n) = some c) (hr : c.running = false) :
    m.requestStop n = (m, 0) := by
  simp [Manager.requestStop, h, hr]

theorem requestStop_running {m : Manager} {n : String} {c : ControllerRecord}
    (h : m.controllers.find? (fun r => r.name = n) = some c) (hr : c.running = true) :
    m.requestStop n =
      ({ m with controllers := m.controllers.map (stopTransform n) }, 0) := by
  simp [Manager.requestStop, h, hr]

theorem startTransform_name (t : ControllerRecord) (ok : Bool) (r : ControllerRecord) :
    (startTransform t ok r).name = r.name := by
  unfold startTransform
  split <;> [skip; split <;> rfl]
  split <;> rfl

theorem startTransform_claimed (t : ControllerRecord) (ok : Bool) (r : ControllerRecord) :
    (startTransform t ok r).claimed = r.claimed := by
  unfold startTransform
  split <;> [skip; split <;> rfl]
  split <;> rfl

theorem stopTransform_name (n : String) (r : ControllerRecord) :
    (stopTransform n r).name = r.name := by
  unfold stopTransform
  split <;> rfl

theorem stopTransform_claimed (n : String) (r : ControllerRecord) :
    (stopTransform n r).claimed = r.claimed := by
  unfold stopTransform
  split <;> rfl

theorem stopTransform_running (n : String) (r : ControllerRecord)
    (h : (stopTransform n r).running = true) : r.running = true := by
  unfold stopTransform at h
  split at h
  · exact absurd h (by simp)
  · exact h

/-- Case analysis for the run state after `startTransform`: a record is
RUNNING after the transform only if it is the (successfully started) target
or it was RUNNING before and does not conflict with the target. -/
theorem startTransform_running_cases (t : ControllerRecord) (ok : Bool)
    (r : ControllerRecord) (h : (startTransform t ok r).running = true) :
    (r.name = t.name ∧ (ok = true ∨ r.running = true)) ∨
    (r.name ≠ t.name ∧ r.running = true ∧ resConflict r.claimed t.claimed = false) := by
  unfold startTransform at h
  by_cases hname : r.name = t.name
  · simp only [hname, if_pos rfl] at h
    cases hok : ok
    · subst hok
      simp only [Bool.false_eq_true, if_false] at h
      exact Or.inl ⟨hname, Or.inr h⟩
    · exact Or.inl ⟨hname, Or.inl rfl⟩
  · simp only [if_neg hname] at h
    by_cases hcond : r.running && resConflict r.claimed t.claimed
    · rw [if_pos hcond] at h
      exact absurd h (by simp)
    · rw [if_neg hcond] at h
      refine Or.inr ⟨hname, h, ?_⟩
      cases hc : resConflict r.claimed t.claimed with
      | false => rfl
      | true => exact absurd (by simp [h, hc]) hcond

theorem inv_map_startTransform {m : Manager} {c : ControllerRecord}
    (hinv : Inv m) (hc_mem : c ∈ m.controllers) (ok : Bool) :
    (m.controllers.map (startTransform c ok)).Pairwise MutexRel := by
  rw [List.pairwise_map]
  refine List.Pairwise.imp_of_mem ?_ hinv
  intro a b ha hb hab
  obtain ⟨hname, hmux⟩ := hab
  refine ⟨by simpa [startTransform_name] using hname, ?_⟩
  intro hfa hfb
  rw [startTransform_claimed, startTransform_claimed]
  have hinj := hinv.namesDistinct.inj
  rcases startTransform_running_cases c ok a hfa with ⟨hac, _⟩ | ⟨_, har, hconfa⟩
  · -- `a` is the started target, so `a = c`
    have hac' : a = c := hinj a ha c hc_mem hac
    rcases startTransform_running_cases c ok b hfb with ⟨hbc, _⟩ | ⟨_, _, hconfb⟩
    · have hbc' : b = c := hinj b hb c hc_mem hbc
      exact absurd (hac' ▸ hbc' ▸ rfl) hname
    · rw [hac', resConflict_comm]
      exact hconfb
  · rcases startTransform_running_cases c ok b hfb with ⟨hbc, _⟩ | ⟨_, hbr, _⟩
    · have hbc' : b = c := hinj b hb c hc_mem hbc
      rw [hbc']
      exact hconfa
    · exact hmux har hbr

theorem inv_requestStart {m : Manager} (n : String) (hinv : Inv m) :
    Inv ((m.requestStart n).1) := by
  cases hfind : m.controllers.find? (fun r => r.name = n) with
  | none => rw [requestStart_not_found hfind]; exact hinv
  | some c =>
    have hc_mem : c ∈ m.controllers := List.mem_of_find?_eq_some hfind
    cases hrun : c.running with
    | true => rw [requestStart_already_running hfind hrun]; exact hinv
    | false =>
      rw [requestStart_fst_of_stopped hfind hrun]
      exact inv_map_startTransform hinv hc_mem c.startOk

theorem inv_requestStop {m : Manager} (n : String) (hinv : Inv m) :
    Inv ((m.requestStop n).1) := by
  cases hfind : m.controllers.find? (fun r => r.name = n) with
  | none => rw [requestStop_not_found hfind]; exact hinv
  | some c =>
    cases hrun : c.running with
    | false => rw [requestStop_stopped hfind hrun]; exact hinv
    | true =>
      rw [requestStop_running hfind hrun]
      show (m.controllers.map (stopTransform n)).Pairwise MutexRel
      rw [List.pairwise_map]
      refine hinv.imp ?_
      intro a b hab
      obtain ⟨hname, hmux⟩ := hab
      refine ⟨by simpa [stopTransform_name] using hname, ?_⟩
      intro hfa hfb
      rw [stopTransform_claimed, stopTransform_claimed]
      exact hmux (stopTransform_running n a hfa) (stopTransform_running n b hfb)

theorem inv_applyOps {m : Manager} (hinv : Inv m) :
    ∀ ops : List Op, Inv (m.applyOps ops) := by
  intro ops
  induction ops generalizing m with
  | nil => exact hinv
  | cons op rest ih =>
    cases op with
    | start n => exact ih (inv_requestStart n hinv)
    | stop n => exact ih (inv_requestStop n hinv)

/-- The dispatch-loop trace is exactly the RUNNING records, in insertion
order, each invoked with the given time and interval. -/
theorem updateLoop_eq (time dt : Int) (l : List ControllerRecord) :
    updateLoop time dt l =
      (l.filter (fun c => c.running)).map
        (fun c => { name := c.name, time := time, dt := dt, faulted := c.updateFaults }) := by
  induction l with
  | nil => rfl
  | cons c rest ih =>
    cases h : c.running with
    | true => simp [updateLoop, h, List.filter_cons, ih]
    | false => simp [updateLoop, h, List.filter_cons, ih]

theorem recordId_startTransform (t : ControllerRecord) (ok : Bool) (r : ControllerRecord) :
    recordId (startTransform t ok r) = recordId r := by
  unfold startTransform recordId
  split <;> [skip; split <;> rfl]
  split <;> rfl

theorem recordId_stopTransform (n : String) (r : ControllerRecord) :
    recordId (stopTransform n r) = recordId r := by
  unfold stopTransform recordId
  split <;> rfl

theorem recordId_requestStart (m : Manager) (n : String) :
    (m.requestStart n).1.controllers.map recordId = m.controllers.map recordId := by
  cases hfind : m.controllers.find? (fun r => r.name = n) with
  | none => rw [requestStart_not_found hfind]
  | some c =>
    cases hrun : c.running with
    | true => rw [requestStart_already_running hfind hrun]
    | false =>
      rw [requestStart_fst_of_stopped hfind hrun]
      show (m.controllers.map (startTransform c c.startOk)).map recordId = _
      rw [List.map_map]
      exact List.map_congr_left (fun a _ => recordId_startTransform c c.startOk a)

theorem recordId_requestStop (m : Manager) (n : String) :
    (m.requestStop n).1.controllers.map recordId = m.controllers.map recordId := by
  cases hfind : m.controllers.find? (fun r => r.name = n) with
  | none => rw [requestStop_not_found hfind]
  | some c =>
    cases hrun : c.running with
    | false => rw [requestStop_stopped hfind hrun]
    | true =>
      rw [requestStop_running hfind hrun]
      show (m.controllers.map (stopTransform n)).map recordId = _
      rw [List.map_map]
      exact List.map_congr_left (fun a _ => recordId_stopTransform n a)

theorem recordId_startAll (starts : List String) :
    ∀ m : Manager, (m.startAll starts).controllers.map recordId = m.controllers.map recordId := by
  induction starts with
  | nil => intro m; rfl
  | cons n rest ih =>
    intro m
    show ((m.requestStart n).1.startAll rest).controllers.map recordId = _
    rw [ih, recordId_requestStart]

theorem recordId_stopAll (stops : List String) :
    ∀ m : Manager, (m.stopAll stops).controllers.map recordId = m.controllers.map recordId := by
  induction stops with
  | nil => intro m; rfl
  | cons n rest ih =>
    intro m
    show ((m.requestStop n).1.stopAll rest).controllers.map recordId = _
    rw [ih, recordId_requestStop]

theorem name_map_eq_of_recordId_eq {l l' : List ControllerRecord}
    (h : l.map recordId = l'.map recordId) :
    l.map (fun c => c.name) = l'.map (fun c => c.name) := by
  have h2 := congrArg (List.map Prod.fst) h
  rw [List.map_map, List.map_map] at h2
  exact h2

theorem find?_name_none_iff (m : Manager) (n : String) :
    m.controllers.find? (fun r => r.name = n) = none ↔
      n ∉ m.controllers.map (fun c => c.name) := by
  rw [List.find?_eq_none]
  constructor
  · intro h hmem
    rcases List.mem_map.mp hmem with ⟨c, hc, hcn⟩
    have hx := h c hc
    simp only [decide_eq_true_eq] at hx
    exact hx hcn
  · intro h c hc
    simp only [decide_eq_true_eq]
    exact fun hcn => h (List.mem_map.mpr ⟨c, hc, hcn⟩)

/-- C1: Mutual exclusion invariant: for every pair of loaded controllers A
and B whose claimed-resource sets intersect, after any finite sequence of
requestStart and requestStop calls starting from the post-init state (every
record STOPPED; loaded names distinct, as init's load guarantees), A and B
are never simultaneously RUNNING. -/
theorem C1_mutual_exclusion (m : Manager) (ops : List Op)
    (hnodup : NamesDistinct m)
    (hstop : ∀ c ∈ m.controllers, c.running = false)
    (A B : ControllerRecord)
    (hA : A ∈ (m.applyOps ops).controllers) (hB : B ∈ (m.applyOps ops).controllers)
    (hAB : A ≠ B) (hconf : resConflict A.claimed B.claimed = true) :
    ¬(A.running = true ∧ B.running = true) := by
  rintro ⟨hAr, hBr⟩
  have hinv : Inv (m.applyOps ops) := inv_applyOps (inv_of_all_stopped hnodup hstop) ops
  have hsym : (m.applyOps ops).controllers.Pairwise
      (fun a b => MutexRel a b ∨ MutexRel b a) :=
    hinv.imp (fun h => Or.inl h)
  have hsymm : Symmetric (fun a b : ControllerRecord => MutexRel a b ∨ MutexRel b a) :=
    fun _ _ h => h.symm
  rcases List.Pairwise.forall hsymm hsym hA hB hAB with h | h
  · simp [h.2 hAr hBr] at hconf
  · have hfalse := h.2 hBr hAr
    rw [resConflict_comm] at hfalse
    simp [hfalse] at hconf

/-- Witness for C1: the spec's sample scenario — both controllers claim
"shoulder_pan"; after requestStart of each in turn, they are not both
RUNNING (the follower record ends STOPPED, the teleop record RUNNING). -/
theorem C1_mutual_exclusion_witness :
    ¬(ftRec.running = true ∧ tpRunning.running = true) :=
  C1_mutual_exclusion sampleStopped [Op.start "follow_trajectory", Op.start "teleop"]
    (by unfold NamesDistinct; decide) (by decide) ftRec tpRunning
    (by decide) (by decide) (by decide) (by decide)

/-- C2: Eviction correctness: requestStart(X) where STOPPED X (whose start
step succeeds) conflicts with currently-RUNNING Y transitions Y to STOPPED
as part of starting X; after the call the record named X is RUNNING and the
record named Y is STOPPED, and the call succeeds. -/
theorem C2_eviction_correctness (m : Manager) (x y : ControllerRecord)
    (hnd : NamesDistinct m)
    (hx : x ∈ m.controllers) (hxr : x.running = false) (hxok : x.startOk = true)
    (hy : y ∈ m.controllers) (hyr : y.running = true)
    (hconf : resConflict x.claimed y.claimed = true) :
    (m.requestStart x.name).2 = 0 ∧
    ∀ r ∈ (m.requestStart x.name).1.controllers,
      (r.name = x.name → r.running = true) ∧
      (r.name = y.name → r.running = false) := by
  have hfind : m.controllers.find? (fun r => r.name = x.name) = some x :=
    find?_name_eq_some_self hnd hx
  have hyx : y.name ≠ x.name := by
    intro he
    have : y = x := hnd.inj y hy x hx he
    rw [this, hxr] at hyr
    exact absurd hyr (by simp)
  constructor
  · simp [Manager.requestStart, hfind, hxr, hxok]
  · intro r hr
    rw [requestStart_fst_of_stopped hfind hxr] at hr
    rcases List.mem_map.mp hr with ⟨a, ha, rfl⟩
    constructor
    · intro hname
      rw [startTransform_name] at hname
      have hax : a = x := hnd.inj a ha x hx hname
      rw [hax]
      simp [startTransform, hxok]
    · intro hname
      rw [startTransform_name] at hname
      have hay : a = y := hnd.inj a ha y hy hname
      have hcyx : resConflict y.claimed x.claimed = true := by
        rw [resConflict_comm]; exact hconf
      rw [hay]
      simp [startTransform, hyx, hyr, hcyx]

/-- Witness for C2: with the trajectory follower RUNNING, requestStart of
the conflicting teleop controller succeeds, ends with the teleop record
RUNNING and the evicted follower record STOPPED. -/
theorem C2_eviction_correctness_witness :
    (sampleFtRunning.requestStart "teleop").2 = 0 ∧
    tpRunning.running = true ∧ ftRec.running = false :=
  have h := C2_eviction_correctness sampleFtRunning tpRec ftRunning
    (by unfold NamesDistinct; decide) (by decide) rfl rfl (by decide) rfl (by decide)
  ⟨h.1, (h.2 tpRunning (by decide)).1 (by decide), (h.2 ftRec (by decide)).2 (by decide)⟩

/-- C3: Start-failure without rollback: when STOPPED X's own start step
fails, requestStart(X) reports a negative error code, the record named X
remains STOPPED, and every record that conflicts with X (in particular
every controller evicted because of the conflict) ends STOPPED — evicted
controllers are not restarted. -/
theorem C3_start_failure (m : Manager) (x : ControllerRecord)
    (hnd : NamesDistinct m) (hx : x ∈ m.controllers)
    (hxr : x.running = false) (hxok : x.startOk = false) :
    (m.requestStart x.name).2 < 0 ∧
    ∀ r ∈ (m.requestStart x.name).1.controllers,
      (r.name = x.name ∨ resConflict r.claimed x.claimed = true) → r.running = false := by
  have hfind : m.controllers.find? (fun r => r.name = x.name) = some x :=
    find?_name_eq_some_self hnd hx
  constructor
  · rw [requestStart_snd_of_failed hfind hxr hxok]
    norm_num
  · intro r hr hcase
    rw [requestStart_fst_of_stopped hfind hxr] at hr
    rcases List.mem_map.mp hr with ⟨a, ha, rfl⟩
    rcases hcase with hname | hconf
    · rw [startTransform_name] at hname
      have hax : a = x := hnd.inj a ha x hx hname
      rw [hax]
      simp [startTransform, hxok, hxr]
    · rw [startTransform_claimed] at hconf
      by_cases hname : a.name = x.name
      · have hax : a = x := hnd.inj a ha x hx hname
        rw [hax]
        simp [startTransform, hxok, hxr]
      · cases har : a.running with
        | false => simp [startTransform, hname, har, hconf]
        | true => simp [startTransform, hname, har, hconf]

/-- Witness for C3: with the trajectory follower RUNNING, requestStart of a
conflicting controller whose start step fails reports an error, leaves the
new controller STOPPED, and leaves the evicted follower STOPPED. -/
theorem C3_start_failure_witness :
    (sampleBad.requestStart "bad_start").2 < 0 ∧
    badRec.running = false ∧ ftRec.running = false :=
  have h := C3_start_failure sampleBad badRec (by unfold NamesDistinct; decide) (by decide) rfl rfl
  ⟨h.1, h.2 badRec (by decide) (Or.inl (by decide)),
    h.2 ftRec (by decide) (Or.inr (by decide))⟩

/-- C4: Idempotent no-ops: requestStart on an already-RUNNING loaded
controller succeeds with the entire manager state unchanged, and
requestStop on a STOPPED loaded controller succeeds with the entire manager
state unchanged. -/
theorem C4_idempotent_noops (m : Manager) (n : String) (c : ControllerRecord)
    (hfind : m.controllers.find? (fun r => r.name = n) = some c) :
    (c.running = true → m.requestStart n = (m, 0)) ∧
    (c.running = false → m.requestStop n = (m, 0)) :=
  ⟨fun hr => requestStart_already_running hfind hr,
   fun hr => requestStop_stopped hfind hr⟩

/-- Witness for C4: with the follower RUNNING and teleop STOPPED,
requestStart("follow_trajectory") and requestStop("teleop") both succeed
and leave the manager unchanged. -/
theorem C4_idempotent_noops_witness :
    sampleFtRunning.requestStart "follow_trajectory" = (sampleFtRunning, 0) ∧
    sampleFtRunning.requestStop "teleop" = (sampleFtRunning, 0) :=
  ⟨(C4_idempotent_noops sampleFtRunning "follow_trajectory" ftRunning (by decide)).1 rfl,
   (C4_idempotent_noops sampleFtRunning "teleop" tpRec (by decide)).2 rfl⟩

/-- C5: Not-found failure is atomic: when no loaded record matches the
name, requestStart and requestStop each return a negative (non-success)
code and leave the entire manager state unchanged. -/
theorem C5_not_found_atomic (m : Manager) (n : String)
    (h : m.controllers.find? (fun r => r.name = n) = none) :
    (m.requestStart n).1 = m ∧ (m.requestStart n).2 < 0 ∧
    (m.requestStop n).1 = m ∧ (m.requestStop n).2 < 0 := by
  rw [requestStart_not_found h, requestStop_not_found h]
  exact ⟨rfl, by norm_num, rfl, by norm_num⟩

/-- Witness for C5: a name matching no loaded controller makes both
requests fail and leave the sample manager unchanged. -/
theorem C5_not_found_atomic_witness :
    (sampleStopped.requestStart "no_such").1 = sampleStopped ∧
    (sampleStopped.requestStart "no_such").2 < 0 ∧
    (sampleStopped.requestStop "no_such").1 = sampleStopped ∧
    (sampleStopped.requestStop "no_such").2 < 0 :=
  C5_not_found_atomic sampleStopped "no_such" (by decide)

/-- C6: Handle registry contract: addJointHandle / addGyroHandle register a
handle under its declared name and return false (manager unchanged) when a
handle of that name already exists in the same category; getJointHandle,
getGyroHandle and getHandle return the matching handle, or a null/empty
result when the name is absent (lookup is total, hence never throws). -/
theorem C6_handle_registry (m : Manager) (j : JointHandle) (g : GyroHandle) (n : String) :
    (m.joints.any (fun q => q.name = j.name) = true → m.addJointHandle j = (m, false)) ∧
    (m.joints.any (fun q => q.name = j.name) = false →
      (m.addJointHandle j).2 = true ∧
      (m.addJointHandle j).1.getJointHandle j.name = some j) ∧
    (m.gyros.any (fun q => q.name = g.name) = true → m.addGyroHandle g = (m, false)) ∧
    (m.gyros.any (fun q => q.name = g.name) = false →
      (m.addGyroHandle g).2 = true ∧
      (m.addGyroHandle g).1.getGyroHandle g.name = some g) ∧
    (∀ q, m.getJointHandle n = some q → q ∈ m.joints ∧ q.name = n) ∧
    (m.getJointHandle n = none ↔ ∀ q ∈ m.joints, q.name ≠ n) ∧
    (∀ q, m.getGyroHandle n = some q → q ∈ m.gyros ∧ q.name = n) ∧
    (m.getGyroHandle n = none ↔ ∀ q ∈ m.gyros, q.name ≠ n) ∧
    (∀ q, m.getHandle n = some (Handle.joint q) → q ∈ m.joints ∧ q.name = n) ∧
    (∀ q, m.getHandle n = some (Handle.gyro q) → q ∈ m.gyros ∧ q.name = n) ∧
    (m.getHandle n = none ↔
      (∀ q ∈ m.joints, q.name ≠ n) ∧ (∀ q ∈ m.gyros, q.name ≠ n)) := by
  have joint_none : m.getJointHandle n = none ↔ ∀ q ∈ m.joints, q.name ≠ n := by
    unfold Manager.getJointHandle
    rw [List.find?_eq_none]
    constructor
    · intro hnone q hq hqn
      have := hnone q hq
      simp [hqn] at this
    · intro hall q hq
      simp only [decide_eq_true_eq]
      exact hall q hq
  have gyro_none : m.getGyroHandle n = none ↔ ∀ q ∈ m.gyros, q.name ≠ n := by
    unfold Manager.getGyroHandle
    rw [List.find?_eq_none]
    constructor
    · intro hnone q hq hqn
      have := hnone q hq
      simp [hqn] at this
    · intro hall q hq
      simp only [decide_eq_true_eq]
      exact hall q hq
  have joint_some : ∀ q, m.getJointHandle n = some q → q ∈ m.joints ∧ q.name = n := by
    intro q hq
    exact ⟨List.mem_of_find?_eq_some hq, by simpa using List.find?_some hq⟩
  have gyro_some : ∀ q, m.getGyroHandle n = some q → q ∈ m.gyros ∧ q.name = n := by
    intro q hq
    exact ⟨List.mem_of_find?_eq_some hq, by simpa using List.find?_some hq⟩
  refine ⟨?_, ?_, ?_, ?_, joint_some, joint_none, gyro_some, gyro_none, ?_, ?_, ?_⟩
  · intro hany
    simp [Manager.addJointHandle, hany]
  · intro hany
    have hnone : m.joints.find? (fun q => q.name = j.name) = none := by
      rw [List.find?_eq_none]
      intro q hq
      simp only [decide_eq_true_eq]
      intro hqn
      have habs : m.joints.any (fun q => q.name = j.name) = true :=
        List.any_eq_true.mpr ⟨q, hq, by simp [hqn]⟩
      rw [habs] at hany
      exact absurd hany (by simp)
    constructor
    · simp [Manager.addJointHandle, hany]
    · simp [Manager.addJointHandle, hany, Manager.getJointHandle, List.find?_append, hnone]
  · intro hany
    simp [Manager.addGyroHandle, hany]
  · intro hany
    have hnone : m.gyros.find? (fun q => q.name = g.name) = none := by
      rw [List.find?_eq_none]
      intro q hq
      simp only [decide_eq_true_eq]
      intro hqn
      have habs : m.gyros.any (fun q => q.name = g.name) = true :=
        List.any_eq_true.mpr ⟨q, hq, by simp [hqn]⟩
      rw [habs] at hany
      exact absurd hany (by simp)
    constructor
    · simp [Manager.addGyroHandle, hany]
    · simp [Manager.addGyroHandle, hany, Manager.getGyroHandle, List.find?_append, hnone]
  · intro q hq
    unfold Manager.getHandle at hq
    cases hj : m.getJointHandle n with
    | some w =>
      have hwq : w = q := by
        rw [hj] at hq
        simpa using hq
      rw [← hwq]
      exact joint_some w hj
    | none =>
      rw [hj] at hq
      cases hg : m.getGyroHandle n with
      | some w => rw [hg] at hq; simp at hq
      | none => rw [hg] at hq; simp at hq
  · intro q hq
    unfold Manager.getHandle at hq
    cases hj : m.getJointHandle n with
    | some w => rw [hj] at hq; simp at hq
    | none =>
      rw [hj] at hq
      cases hg : m.getGyroHandle n with
      | some w =>
        have hwq : w = q := by
          rw [hg] at hq
          simpa using hq
        rw [← hwq]
        exact gyro_some w hg
      | none => rw [hg] at hq; simp at hq
  · constructor
    · intro hq
      unfold Manager.getHandle at hq
      cases hj : m.getJointHandle n with
      | some w => rw [hj] at hq; simp at hq
      | none =>
        cases hg : m.getGyroHandle n with
        | some w => rw [hj, hg] at hq; simp at hq
        | none => exact ⟨joint_none.mp hj, gyro_none.mp hg⟩
    · rintro ⟨hjoints, hgyros⟩
      unfold Manager.getHandle
      rw [joint_none.mpr hjoints, gyro_none.mpr hgyros]

/-- Witness for C6: on the sample registry, re-adding the registered
shoulder joint fails and leaves the manager unchanged; adding a fresh gyro
succeeds and the gyro is then found under its name; lookups of present and
absent names return the matching handle and none respectively. -/
theorem C6_handle_registry_witness :
    sampleStopped.addJointHandle shoulderJoint = (sampleStopped, false) ∧
    (sampleStopped.addGyroHandle { name := "base_imu", payload := 7 }).2 = true ∧
    (sampleStopped.addGyroHandle { name := "base_imu", payload := 7 }).1.getGyroHandle
        "base_imu" = some { name := "base_imu", payload := 7 } ∧
    (shoulderJoint ∈ sampleStopped.joints ∧ shoulderJoint.name = "shoulder_pan") ∧
    sampleStopped.getJointHandle "no_such" = none :=
  have h1 := C6_handle_registry sampleStopped shoulderJoint
    { name := "base_imu", payload := 7 } "shoulder_pan"
  have h2 := C6_handle_registry sampleStopped shoulderJoint
    { name := "base_imu", payload := 7 } "no_such"
  have hadd := h1.2.2.2.1 (by decide)
  ⟨h1.1 (by decide), hadd.1, hadd.2,
   h1.2.2.2.2.1 shoulderJoint (by decide),
   h2.2.2.2.2.2.1.mpr (by decide)⟩

/-- C7: Update dispatch order and argument preservation: update(time, dt)
leaves the manager (in particular every record's run state) unchanged and
invokes the update step of exactly the currently RUNNING records, in
record-insertion order, passing time and dt unchanged to each. -/
theorem C7_update_dispatch (m : Manager) (time dt : Int) :
    (m.update time dt).1 = m ∧
    (m.update time dt).2 =
      (m.controllers.filter (fun c => c.running)).map
        (fun c => { name := c.name, time := time, dt := dt, faulted := c.updateFaults }) :=
  ⟨rfl, updateLoop_eq time dt m.controllers⟩

/-- C8: Dispatcher fault isolation: within one update(time, dt) tick, even
when some RUNNING controller's update step faults, every RUNNING controller
still has its update step invoked with the given time and dt, and the
shared manager state is not corrupted (it is unchanged). -/
theorem C8_fault_isolation (m : Manager) (time dt : Int) (f c : ControllerRecord)
    (hf : f ∈ m.controllers) (hff : f.updateFaults = true) (hfr : f.running = true)
    (hc : c ∈ m.controllers) (hcr : c.running = true) :
    (m.update time dt).1 = m ∧
    { name := c.name, time := time, dt := dt, faulted := c.updateFaults } ∈
      (m.update time dt).2 := by
  refine ⟨rfl, ?_⟩
  show _ ∈ updateLoop time dt m.controllers
  rw [updateLoop_eq]
  exact List.mem_map.mpr ⟨c, List.mem_filter.mpr ⟨hc, by simp [hcr]⟩, rfl⟩

/-- Witness for C8: with a faulting RUNNING controller loaded before a
healthy RUNNING one, the tick still invokes the healthy controller's update
step with the given time and dt, and the manager is unchanged. -/
theorem C8_fault_isolation_witness :
    (sampleFaulty.update 5 1).1 = sampleFaulty ∧
    { name := "healthy", time := 5, dt := 1, faulted := false } ∈
      (sampleFaulty.update 5 1).2 :=
  C8_fault_isolation sampleFaulty 5 1 faultyRec healthyRec
    (by decide) rfl rfl (by decide) rfl

/-- C9: Gateway request processing: a requested name matching no loaded
controller is skipped without aborting the processing of the remaining
requested names (whether it occurs in the start list or the stop list), and
the produced result enumerates every loaded controller's name, in load
order, with its final run state. -/
theorem C9_gateway_processing (m : Manager) (n : String) (starts stops : List String)
    (h : m.controllers.find? (fun r => r.name = n) = none) :
    m.execute (n :: starts) stops = m.execute starts stops ∧
    m.execute starts (n :: stops) = m.execute starts stops ∧
    (m.execute starts stops).2.map Prod.fst = m.controllers.map (fun c => c.name) := by
  have hfst : ∀ l : List ControllerRecord,
      (l.map (fun c => (c.name, c.running))).map Prod.fst = l.map (fun c => c.name) := by
    intro l
    rw [List.map_map]
    exact List.map_congr_left (fun a _ => rfl)
  refine ⟨?_, ?_, ?_⟩
  · have h1 : m.startAll (n :: starts) = m.startAll starts := by
      show ((m.requestStart n).1).startAll starts = m.startAll starts
      rw [requestStart_not_found h]
    simp [Manager.execute, h1]
  · have hnames : (m.startAll starts).controllers.map (fun c => c.name) =
        m.controllers.map (fun c => c.name) :=
      name_map_eq_of_recordId_eq (recordId_startAll starts m)
    have h2 : (m.startAll starts).controllers.find? (fun r => r.name = n) = none := by
      rw [find?_name_none_iff] at h ⊢
      rw [hnames]
      exact h
    have h3 : (m.startAll starts).stopAll (n :: stops) =
        (m.startAll starts).stopAll stops := by
      show (((m.startAll starts).requestStop n).1).stopAll stops = _
      rw [requestStop_not_found h2]
    simp [Manager.execute, h3]
  · show (((m.startAll starts).stopAll stops).getState).map Prod.fst = _
    unfold Manager.getState
    rw [hfst]
    have : ((m.startAll starts).stopAll stops).controllers.map recordId =
        m.controllers.map recordId := by
      rw [recordId_stopAll, recordId_startAll]
    exact name_map_eq_of_recordId_eq this

/-- Witness for C9: on the sample manager, an unknown name in the start or
stop list does not change the outcome for the remaining names, and the
result enumerates both loaded controllers in load order. -/
theorem C9_gateway_processing_witness :
    sampleStopped.execute ["no_such", "teleop"] [] = sampleStopped.execute ["teleop"] [] ∧
    sampleStopped.execute ["teleop"] ["no_such"] = sampleStopped.execute ["teleop"] [] ∧
    (sampleStopped.execute ["teleop"] []).2.map Prod.fst =
      ["follow_trajectory", "teleop"] :=
  have h := C9_gateway_processing sampleStopped "no_such" ["teleop"] [] (by decide)
  ⟨h.1, h.2.1, h.2.2.trans (by decide)⟩

/-- C10: The set of loaded Controller Records is fixed after init: no public
operation (requestStart, requestStop, update, reset, the gateway execute, or
the handle-registration APIs) adds or removes a Controller Record or alters
a record's identity — its name, claimed resources, or wrapped controller
behavior; only run states may change. -/
theorem C10_loaded_set_fixed (m : Manager) (n : String) (time dt : Int)
    (starts stops : List String) (j : JointHandle) (g : GyroHandle) :
    (m.requestStart n).1.controllers.map recordId = m.controllers.map recordId ∧
    (m.requestStop n).1.controllers.map recordId = m.controllers.map recordId ∧
    (m.update time dt).1 = m ∧
    m.reset.1 = m ∧
    (m.execute starts stops).1.controllers.map recordId = m.controllers.map recordId ∧
    (m.addJointHandle j).1.controllers = m.controllers ∧
    (m.addGyroHandle g).1.controllers = m.controllers := by
  refine ⟨recordId_requestStart m n, recordId_requestStop m n, rfl, rfl, ?_, ?_, ?_⟩
  · show ((m.startAll starts).stopAll stops).controllers.map recordId = _
    rw [recordId_stopAll, recordId_startAll]
  · unfold Manager.addJointHandle
    split <;> rfl
  · unfold Manager.addGyroHandle
    split <;> rfl


end RobotControllers
